import Mathlib

/-!
Shallow embedding of the EMI (installment-loan) core of the
`Kamallochan2006/Django_car_store` repository, translated from
`src/car/views.py` and `src/car/models.py`.

Conventions:
* Monetary `Decimal` database columns have two fractional digits; they are
  embedded as integer amounts of cents (`ℤ`).  Request amounts arrive as
  strings and are quantized to two digits on entry
  (`Decimal(str(amount)).quantize(Decimal('0.01'))`); the embedded payment
  handlers therefore take the already-quantized amount in cents.
* Intermediate `Decimal` computation inside `_compute_emi` is embedded as
  exact rational arithmetic (`ℚ`).  Python's `decimal` module carries 28
  significant digits; for the magnitudes handled here (12-digit money
  columns, small month counts) the exact-rational value and the 28-digit
  value always quantize to the same cent, so the embedding is faithful.
* `ROUND_HALF_UP` in Python's `decimal` rounds ties away from zero; the
  default context rounding (plain `.quantize(Decimal('0.01'))`) is
  `ROUND_HALF_EVEN` (banker's rounding).  Both are embedded below.
* Python `date` objects are embedded as a year/month/day record with
  unbounded integer year; `date.replace` / `timedelta(days=30)` arithmetic
  is embedded by exact calendar stepping.
* Django ORM state is embedded explicitly: the list of `Payment` rows and
  the `EMIPlan` row are passed in and returned.  `transaction.atomic()`
  blocks commit all of their writes together; `make_emi_payment` calls
  `plan.save()` *after* its atomic block closes, which is modelled by
  `make_emi_payment_crashed_db` (the durable state when the process fails
  at that save).
-/

namespace CarStore

/-- Python `datetime.date`, with unbounded year. -/
structure PyDate where
  year : Int
  month : Int
  day : Int
deriving DecidableEq

/-- `calendar.isleap`, as used by `calendar.monthrange`. -/
def isLeap (y : Int) : Bool :=
  y.emod 4 == 0 && (y.emod 100 != 0 || y.emod 400 == 0)

/-- `calendar.monthrange(year, month)[1]`: number of days in the month. -/
def daysInMonth (y m : Int) : Int :=
  if m = 2 then (if isLeap y then 29 else 28)
  else if m = 4 ∨ m = 6 ∨ m = 9 ∨ m = 11 then 30
  else 31

/-- `_add_months(sourcedate, months)` from `src/car/views.py` lines 68-77.
Python `//` and `%` are floor division and (for the positive modulus 12)
the nonnegative remainder, i.e. `Int.fdiv` / `Int.fmod`. -/
def add_months (sourcedate : PyDate) (months : Int) : PyDate :=
  let month₀ : Int := sourcedate.month + months
  let year₀ : Int := sourcedate.year + month₀.fdiv 12
  let month₁ : Int := month₀.fmod 12
  let year : Int := if month₁ = 0 then year₀ - 1 else year₀
  let month : Int := if month₁ = 0 then 12 else month₁
  let day : Int := min sourcedate.day (daysInMonth year month)
  ⟨year, month, day⟩

/-- Step a date forward one calendar day. -/
def nextDay (d : PyDate) : PyDate :=
  if d.day < daysInMonth d.year d.month then ⟨d.year, d.month, d.day + 1⟩
  else if d.month < 12 then ⟨d.year, d.month + 1, 1⟩
  else ⟨d.year + 1, 1, 1⟩

/-- `d + datetime.timedelta(days=n)` for a valid date `d` and `n ≥ 0`. -/
def addDays (d : PyDate) (n : Nat) : PyDate :=
  nextDay^[n] d

/-- Date comparison, as used by the `payment_date__date__gte` ORM filter. -/
def dateLE (a b : PyDate) : Bool :=
  decide (a.year < b.year ∨ (a.year = b.year ∧
    (a.month < b.month ∨ (a.month = b.month ∧ a.day ≤ b.day))))

/-- Total month index of a date (months elapsed since month 1 of year 0);
used to state that `_add_months` adds exactly `n` calendar months. -/
def monthsIndex (d : PyDate) : Int :=
  12 * d.year + (d.month - 1)

/-- `x.quantize(Decimal('0.01'), rounding=ROUND_HALF_UP)` expressed in
cents: round half away from zero. -/
def roundHalfUpCents (q : ℚ) : ℤ :=
  if 0 ≤ q then ⌊100 * q + 1 / 2⌋ else -⌊-(100 * q) + 1 / 2⌋

/-- `x.quantize(Decimal('0.01'))` with the default context rounding
(`ROUND_HALF_EVEN`) expressed in cents: round half to even. -/
def roundHalfEvenCents (q : ℚ) : ℤ :=
  let x : ℚ := 100 * q
  let n : ℤ := ⌊x⌋
  if x - n < 1 / 2 then n
  else if 1 / 2 < x - n then n + 1
  else if n.emod 2 = 0 then n else n + 1

/-- Result triple of `_compute_emi`, in cents. -/
structure EmiSchedule where
  emi : ℤ
  total_amount : ℤ
  total_interest : ℤ
deriving DecidableEq

/-- `_compute_emi(principal, interest_rate, tenure_months)` from
`src/car/views.py` lines 40-65.  `none` models the `ValueError` raised for
invalid parameters.  The quantized principal is checked (the source
quantizes on line 45 before validating on line 48). -/
def compute_emi (principal : ℚ) (interest_rate : ℚ) (tenure_months : ℤ) :
    Option EmiSchedule :=
  let p : ℤ := roundHalfEvenCents principal
  if tenure_months ≤ 0 ∨ p ≤ 0 then none
  else
    let monthly_rate : ℚ := interest_rate / 1200
    let emiRaw : ℚ :=
      if 0 < monthly_rate then
        let factor : ℚ := (1 + monthly_rate) ^ tenure_months.toNat
        ((p : ℚ) / 100) * monthly_rate * factor / (factor - 1)
      else ((p : ℚ) / 100) / (tenure_months : ℚ)
    let emi : ℤ := roundHalfUpCents emiRaw
    let total_amount : ℤ := roundHalfUpCents (((emi : ℚ) / 100) * (tenure_months : ℚ))
    let total_interest : ℤ := roundHalfUpCents (((total_amount : ℚ) / 100) - ((p : ℚ) / 100))
    some ⟨emi, total_amount, total_interest⟩

/-- A row of the `Payment` table (`src/car/models.py`), restricted to the
columns the EMI core reads.  `amount` is in cents; `stripe_session_id` is
`""` for non-Stripe payments (the model's default). -/
structure PaymentRec where
  id : ℤ
  customer : ℤ
  car : ℤ
  amount : ℤ
  payment_status : String
  payment_date : PyDate
  stripe_session_id : String
deriving DecidableEq

/-- A row of the `EMIPlan` table (`src/car/models.py` lines 261-303).
`payment_id` is the nullable one-to-one link to the originating down
payment.  `start_date` is always populated (`auto_now_add`). -/
structure EMIPlan where
  customer : ℤ
  car : ℤ
  payment_id : Option ℤ
  down_payment : ℤ
  loan_amount : ℤ
  interest_rate : ℚ
  tenure_months : ℤ
  monthly_emi : ℤ
  total_interest : ℤ
  total_payable : ℤ
  plan_status : String
  start_date : PyDate
  next_due_date : Option PyDate
deriving DecidableEq

/-- `EMIPlan.save` from `src/car/models.py` lines 289-293: a null
`next_due_date` is repopulated with `start_date + timedelta(days=30)`
before the row is written (`base_date = self.start_date or
timezone.now().date()`; `start_date` is always set here). -/
def EMIPlan.save (p : EMIPlan) : EMIPlan :=
  if p.next_due_date = none then
    { p with next_due_date := some (addDays p.start_date 30) }
  else p

/-- The installment aggregate used by `make_emi_payment` (views 889-894),
`stripe_emi_success` (views 1902-1907) and `emi_plan_detail` (views
777-792): completed payments for the plan's customer and car dated on or
after the plan start, excluding the originating down-payment record. -/
def installmentsPaid (payments : List PaymentRec) (plan : EMIPlan) : ℤ :=
  (payments.filter (fun p =>
      p.customer == plan.customer && p.car == plan.car &&
      p.payment_status == "completed" && dateLE plan.start_date p.payment_date &&
      !(plan.payment_id == some p.id))).foldr (fun p acc => p.amount + acc) 0

/-- `remaining_balance` as computed by `emi_plan_detail`
(`src/car/views.py` lines 798-803): total payable minus down payment and
installment payments, floored at zero. -/
def emi_plan_detail_remaining_balance (plan : EMIPlan) (payments : List PaymentRec) : ℤ :=
  let total_paid : ℤ := plan.down_payment + installmentsPaid payments plan
  let rb : ℤ := plan.total_payable - total_paid
  if rb < 0 then 0 else rb

/-- Failure modes of `make_emi_payment` surfaced before any database
write: the plan-not-active guard (views 837-839) and the
minimum-amount guard (views 844-846). -/
inductive EmiPayError where
  | notActive
  | insufficientAmount
deriving DecidableEq

/-- The `Payment` row inserted by `make_emi_payment` (views 851-859):
amount already quantized, status `completed`, no Stripe session. -/
def mkEmiPayment (plan : EMIPlan) (newId : ℤ) (amount_decimal : ℤ) (now : PyDate) : PaymentRec :=
  ⟨newId, plan.customer, plan.car, amount_decimal, "completed", now, ""⟩

/-- Shared core of `make_emi_payment` (views 821-917): the guards, the
payment insert and the in-memory plan update computed inside the atomic
block.  Returns the in-memory plan (not yet persisted by `plan.save()`),
the committed payment list, and `emi_count`. -/
def emiPaymentCore (plan : EMIPlan) (payments : List PaymentRec) (newId : ℤ)
    (amount_decimal : ℤ) (payment_type : String) (now : PyDate) :
    Except EmiPayError (EMIPlan × List PaymentRec × ℤ) :=
  if plan.plan_status ≠ "active" then .error .notActive
  else if amount_decimal < plan.monthly_emi ∧ payment_type ≠ "full" then
    .error .insufficientAmount
  else
    let payments' := mkEmiPayment plan newId amount_decimal now :: payments
    if payment_type = "full" then
      .ok ({ plan with plan_status := "completed", next_due_date := none },
           payments', plan.tenure_months)
    else
      let emi_count : ℤ := amount_decimal / plan.monthly_emi
      let start_date_for_advance : PyDate :=
        (plan.next_due_date).getD (add_months plan.start_date 1)
      let new_due_date : PyDate := add_months start_date_for_advance emi_count
      let plan₁ := { plan with next_due_date := some new_due_date }
      let total_installments_paid : ℤ := installmentsPaid payments' plan
      if plan.loan_amount + plan.total_interest ≤ total_installments_paid then
        .ok ({ plan₁ with plan_status := "completed", next_due_date := none },
             payments', emi_count)
      else
        .ok (plan₁, payments', emi_count)

/-- Outcome of a completed `make_emi_payment` call: the plan as persisted
by the trailing `plan.save()` (line 917), the payment table, and the
number of EMIs counted. -/
structure EmiPayOutcome where
  plan : EMIPlan
  payments : List PaymentRec
  emi_count : ℤ
deriving DecidableEq

/-- `make_emi_payment` (views 821-917) run to completion: the atomic block
commits the payment insert, then `plan.save()` persists the updated plan
(applying the `EMIPlan.save` hook). -/
def make_emi_payment (plan : EMIPlan) (payments : List PaymentRec) (newId : ℤ)
    (amount_decimal : ℤ) (payment_type : String) (now : PyDate) :
    Except EmiPayError EmiPayOutcome :=
  match emiPaymentCore plan payments newId amount_decimal payment_type now with
  | .error e => .error e
  | .ok (p, ps, c) => .ok ⟨p.save, ps, c⟩

/-- Durable database state of `make_emi_payment` if the process fails at
the `plan.save()` on line 917: that save runs *after* the
`transaction.atomic()` block (lines 849-914) has committed, so the
payment insert is already durable while the plan row is still unchanged.
On a guard failure nothing was written. -/
def make_emi_payment_crashed_db (plan : EMIPlan) (payments : List PaymentRec) (newId : ℤ)
    (amount_decimal : ℤ) (payment_type : String) (now : PyDate) :
    EMIPlan × List PaymentRec :=
  match emiPaymentCore plan payments newId amount_decimal payment_type now with
  | .error _ => (plan, payments)
  | .ok (_, ps, _) => (plan, ps)

/-- Outcome of `stripe_emi_success`: final plan row, payment table, and
the id of the payment whose receipt page is shown. -/
structure StripeEmiOutcome where
  plan : EMIPlan
  payments : List PaymentRec
  redirect_payment_id : ℤ
deriving DecidableEq

/-- `stripe_emi_success` (views 1852-1927): duplicate-session guard, then
(with no plan-status check) the payment insert and the plan update,
`plan.save()` included, inside one atomic block.  `amount_decimal` is the
amount from the session metadata, in cents. -/
def stripe_emi_success (plan : EMIPlan) (payments : List PaymentRec) (newId : ℤ)
    (session_id : String) (payment_type : String) (amount_decimal : ℤ) (now : PyDate) :
    StripeEmiOutcome :=
  match payments.find? (fun p => p.stripe_session_id == session_id) with
  | some existing => ⟨plan, payments, existing.id⟩
  | none =>
    let payment : PaymentRec :=
      ⟨newId, plan.customer, plan.car, amount_decimal, "completed", now, session_id⟩
    let payments' := payment :: payments
    let plan₂ : EMIPlan :=
      if payment_type = "full" then
        { plan with plan_status := "completed", next_due_date := none }
      else
        let emi_count : ℤ := amount_decimal / plan.monthly_emi
        let start_date_for_advance : PyDate :=
          (plan.next_due_date).getD (add_months plan.start_date 1)
        let new_due_date : PyDate := add_months start_date_for_advance emi_count
        let plan₁ := { plan with next_due_date := some new_due_date }
        let total_paid : ℤ := installmentsPaid payments' plan
        if plan.loan_amount + plan.total_interest ≤ total_paid then
          { plan₁ with plan_status := "completed", next_due_date := none }
        else plan₁
    ⟨plan₂.save, payments', newId⟩

/-- The stock and availability columns of a `Car` row, plus its resolved
`price_value` (in cents). -/
structure CarState where
  stock : ℤ
  is_available : Bool
  price_value : ℤ
deriving DecidableEq

/-- The stock column of a `CarColor` (variant) row. -/
structure ColorState where
  stock : ℤ
deriving DecidableEq

/-- Failure modes of the `make_payment` POST path surfaced before the
atomic block: the stock guards (views 595-601), the EMI down-payment
guards (views 619-624) and the `_compute_emi` `ValueError` (views
628-632). -/
inductive PurchaseError where
  | outOfStock
  | downBelowMinimum
  | downNotBelowPrice
  | invalidEmiParameters
deriving DecidableEq

/-- State written by a completed purchase: updated car and variant rows,
the payment table, the number of `Sell` rows, the optional `EMIPlan`
created for a financed purchase, and the id of the created payment. -/
structure PurchaseOutcome where
  car : CarState
  color : Option ColorState
  payments : List PaymentRec
  sells : ℤ
  emi_plan : Option EMIPlan
  payment_id : ℤ
deriving DecidableEq

/-- The writes of the atomic block shared by `make_payment` (views
636-707) and `stripe_success` (views 1657-1715): payment insert, sell
insert, guarded stock decrements, availability update, and the optional
`EMIPlan` insert (whose `EMIPlan.save` hook runs on create). -/
def buildPurchase (customerId carId : ℤ) (car : CarState) (color : Option ColorState)
    (payments : List PaymentRec) (sells : ℤ) (newId : ℤ) (amount : ℤ)
    (sessionId : String) (now : PyDate)
    (emiInfo : Option (ℤ × ℚ × ℤ × ℤ × EmiSchedule)) : PurchaseOutcome :=
  let payment : PaymentRec := ⟨newId, customerId, carId, amount, "completed", now, sessionId⟩
  let color' : Option ColorState := color.map (fun c =>
    if 0 < c.stock then ⟨c.stock - 1⟩ else c)
  let stock' : ℤ := if 0 < car.stock then car.stock - 1 else car.stock
  let car' : CarState :=
    { car with stock := stock',
               is_available := if stock' ≤ 0 then false else car.is_available }
  let emi_plan : Option EMIPlan := emiInfo.map (fun info =>
    let (down, rate, tenure, loan, sched) := info
    EMIPlan.save
      { customer := customerId, car := carId, payment_id := some newId,
        down_payment := down, loan_amount := loan, interest_rate := rate,
        tenure_months := tenure, monthly_emi := sched.emi,
        total_interest := sched.total_interest,
        total_payable := down + sched.total_amount,
        plan_status := "active", start_date := now,
        next_due_date := some (add_months now 1) })
  ⟨car', color', payment :: payments, sells + 1, emi_plan, newId⟩

/-- The POST path of `make_payment` (views 562-733).  `down_payment` and
`amount₀` are the quantized request amounts in cents; `interest_rate` is
the resolved annual rate (car override, staff input or the configured
default — views 579-609).  Everything before the atomic block is
validation; every `.error` return happens before any write. -/
def make_payment (customerId carId : ℤ) (car : CarState) (color : Option ColorState)
    (payments : List PaymentRec) (sells : ℤ) (newId : ℤ)
    (payment_type : String) (amount₀ : ℤ) (down_payment : ℤ)
    (interest_rate : ℚ) (tenure_months : ℤ) (now : PyDate) :
    Except PurchaseError PurchaseOutcome :=
  let car_price_value : ℤ := car.price_value
  if (match color with
      | some c => decide (c.stock ≤ 0)
      | none => false) then .error .outOfStock
  else if color = none ∧ car.stock ≤ 0 then .error .outOfStock
  else if payment_type = "emi" then
    let minimum_down_payment : ℤ :=
      roundHalfUpCents (((car_price_value : ℚ) / 100) * (1 / 10))
    if down_payment < minimum_down_payment then .error .downBelowMinimum
    else if car_price_value ≤ down_payment then .error .downNotBelowPrice
    else
      let loan_amount : ℤ := car_price_value - down_payment
      match compute_emi ((loan_amount : ℚ) / 100) interest_rate tenure_months with
      | none => .error .invalidEmiParameters
      | some sched =>
        .ok (buildPurchase customerId carId car color payments sells newId
              down_payment "" now
              (some (down_payment, interest_rate, tenure_months, loan_amount, sched)))
  else
    .ok (buildPurchase customerId carId car color payments sells newId
          amount₀ "" now none)

/-- Outcome of `stripe_success`: updated rows plus the id of the payment
whose receipt page is shown. -/
structure StripeSuccessOutcome where
  car : CarState
  color : Option ColorState
  payments : List PaymentRec
  sells : ℤ
  emi_plan : Option EMIPlan
  redirect_payment_id : ℤ
deriving DecidableEq

/-- `stripe_success` (views 1614-1748): duplicate-session guard (lines
1650-1653), then the atomic purchase block — with **no** stock check.  A
`ValueError` from `_compute_emi` (only reachable on the financed path)
aborts the atomic block, rolling every write back, which the `.error`
result models.  `down_payment` and `amount` come from the Stripe session
metadata, in cents. -/
def stripe_success (customerId carId : ℤ) (car : CarState) (color : Option ColorState)
    (payments : List PaymentRec) (sells : ℤ) (newId : ℤ)
    (session_id : String) (payment_type : String) (amount : ℤ)
    (down_payment : ℤ) (interest_rate : ℚ) (tenure_months : ℤ) (now : PyDate) :
    Except Unit StripeSuccessOutcome :=
  match payments.find? (fun p => p.stripe_session_id == session_id) with
  | some existing => .ok ⟨car, color, payments, sells, none, existing.id⟩
  | none =>
    if payment_type = "emi" then
      let loan_amount : ℤ := car.price_value - down_payment
      if 0 < loan_amount then
        match compute_emi ((loan_amount : ℚ) / 100) interest_rate tenure_months with
        | none => .error ()
        | some sched =>
          let out := buildPurchase customerId carId car color payments sells newId
            amount session_id now
            (some (down_payment, interest_rate, tenure_months, loan_amount, sched))
          .ok ⟨out.car, out.color, out.payments, out.sells, out.emi_plan, newId⟩
      else
        let out := buildPurchase customerId carId car color payments sells newId
          amount session_id now none
        .ok ⟨out.car, out.color, out.payments, out.sells, none, newId⟩
    else
      let out := buildPurchase customerId carId car color payments sells newId
        amount session_id now none
      .ok ⟨out.car, out.color, out.payments, out.sells, none, newId⟩

/-- The due date computed by the non-full-settlement branch of both
payment handlers: `⌊amount / monthly_emi⌋` months past the current due
date, or past `_add_months(start_date, 1)` when the due date is unset. -/
def advancedDueDate (plan : EMIPlan) (amount : ℤ) : PyDate :=
  add_months ((plan.next_due_date).getD (add_months plan.start_date 1))
    (amount / plan.monthly_emi)

/-- Concrete plan used for witnesses and counterexamples: monthly
installment ₹10,000.00, loan ₹100,000.00 at 0% (total interest 0), down
payment ₹20,000.00, total payable ₹120,000.00, started 2024-01-15, next
installment due 2024-05-15. -/
def scenPlan : EMIPlan :=
  { customer := 1, car := 1, payment_id := some 1,
    down_payment := 2000000, loan_amount := 10000000, interest_rate := 0,
    tenure_months := 10, monthly_emi := 1000000, total_interest := 0,
    total_payable := 12000000, plan_status := "active",
    start_date := ⟨2024, 1, 15⟩, next_due_date := some ⟨2024, 5, 15⟩ }

/-- Payment table for the concrete scenario: the originating down payment
(id 1) and one earlier installment payment of ₹75,000.00, leaving a
remaining balance of ₹25,000.00. -/
def scenPayments : List PaymentRec :=
  [⟨1, 1, 1, 2000000, "completed", ⟨2024, 1, 15⟩, ""⟩,
   ⟨2, 1, 1, 7500000, "completed", ⟨2024, 2, 10⟩, ""⟩]

/-- Expected outcome of paying ₹22,000.00 (type `single`) on `scenPlan`:
two installments applied, due date advanced two months, plan still
active. -/
def scenOut : EmiPayOutcome :=
  ⟨{ scenPlan with next_due_date := some ⟨2024, 7, 15⟩ },
   mkEmiPayment scenPlan 3 2200000 ⟨2024, 6, 1⟩ :: scenPayments, 2⟩

/-- The scenario plan after a full settlement has been recorded: status
`completed` with `next_due_date` cleared by the view code. -/
def c8Plan : EMIPlan :=
  { scenPlan with plan_status := "completed", next_due_date := none }

/-- The loan plan created by the concrete financed purchase used for C4:
car price ₹400,000.00, down payment ₹40,000.00 (the 10% minimum), rate
0%, 36 months — monthly installment ₹10,000.00, stored `total_payable`
₹400,000.00 (down payment included). -/
def c4plan : EMIPlan :=
  { customer := 1, car := 1, payment_id := some 7, down_payment := 4000000,
    loan_amount := 36000000, interest_rate := 0, tenure_months := 36,
    monthly_emi := 1000000, total_interest := 0, total_payable := 40000000,
    plan_status := "active", start_date := ⟨2024, 3, 10⟩,
    next_due_date := some ⟨2024, 4, 10⟩ }

/-- Expected outcome of that financed purchase through `make_payment`. -/
def c4out : PurchaseOutcome :=
  ⟨⟨4, true, 40000000⟩, some ⟨2⟩,
   [⟨7, 1, 1, 4000000, "completed", ⟨2024, 3, 10⟩, ""⟩], 1, some c4plan, 7⟩

set_option maxRecDepth 8000

/-! ## Helper lemmas -/

lemma floor_intCast_add_half (m : ℤ) : ⌊(m : ℚ) + 1 / 2⌋ = m := by
  rw [Int.floor_eq_iff]
  constructor
  · linarith
  · linarith

lemma roundHalfUpCents_ofInt (q : ℚ) (m : ℤ) (h : 100 * q = (m : ℚ)) :
    roundHalfUpCents q = m := by
  unfold roundHalfUpCents
  by_cases h0 : 0 ≤ q
  · rw [if_pos h0, h, floor_intCast_add_half]
  · rw [if_neg h0]
    have h2 : -(100 * q) = ((-m : ℤ) : ℚ) := by push_cast; linarith
    rw [h2, floor_intCast_add_half]
    ring

lemma roundHalfEvenCents_ofInt (q : ℚ) (m : ℤ) (h : 100 * q = (m : ℚ)) :
    roundHalfEvenCents q = m := by
  simp only [roundHalfEvenCents, h, Int.floor_intCast, sub_self]
  norm_num

lemma roundHalfUpCents_eval (q : ℚ) (m : ℤ) (h0 : 0 ≤ q)
    (h1 : (m : ℚ) ≤ 100 * q + 1 / 2) (h2 : 100 * q + 1 / 2 < (m : ℚ) + 1) :
    roundHalfUpCents q = m := by
  unfold roundHalfUpCents
  rw [if_pos h0]
  exact Int.floor_eq_iff.mpr ⟨h1, h2⟩

lemma daysInMonth_pos (y m : Int) : 1 ≤ daysInMonth y m := by
  unfold daysInMonth
  split_ifs <;> norm_num

lemma compute_emi_parts (P r : ℚ) (n : ℤ) (s : EmiSchedule)
    (h : compute_emi P r n = some s) :
    s.total_amount = s.emi * n ∧
    s.total_interest = s.total_amount - roundHalfEvenCents P := by
  simp only [compute_emi] at h
  split at h
  · exact absurd h (by simp)
  · rw [Option.some.injEq] at h
    subst h
    refine ⟨roundHalfUpCents_ofInt _ _ (by push_cast; ring), ?_⟩
    exact roundHalfUpCents_ofInt _ _ (by push_cast; ring)

lemma compute_emi_zero_rate (P : ℚ) (n : ℤ) (hn : 0 < n)
    (hp : 0 < roundHalfEvenCents P) :
    compute_emi P 0 n =
      some ⟨roundHalfUpCents ((roundHalfEvenCents P : ℚ) / 100 / (n : ℚ)),
            roundHalfUpCents ((roundHalfEvenCents P : ℚ) / 100 / (n : ℚ)) * n,
            roundHalfUpCents ((roundHalfEvenCents P : ℚ) / 100 / (n : ℚ)) * n
              - roundHalfEvenCents P⟩ := by
  have hcond : ¬ (n ≤ 0 ∨ roundHalfEvenCents P ≤ 0) := by
    push_neg
    exact ⟨hn, hp⟩
  simp only [compute_emi, zero_div, lt_irrefl, if_false, if_neg hcond]
  rw [roundHalfUpCents_ofInt
        ((roundHalfUpCents ((roundHalfEvenCents P : ℚ) / 100 / (n : ℚ)) : ℚ) / 100 * (n : ℚ))
        (roundHalfUpCents ((roundHalfEvenCents P : ℚ) / 100 / (n : ℚ)) * n)
        (by push_cast; ring)]
  rw [roundHalfUpCents_ofInt
        (((roundHalfUpCents ((roundHalfEvenCents P : ℚ) / 100 / (n : ℚ)) * n : ℤ) : ℚ) / 100
           - (roundHalfEvenCents P : ℚ) / 100)
        (roundHalfUpCents ((roundHalfEvenCents P : ℚ) / 100 / (n : ℚ)) * n
           - roundHalfEvenCents P)
        (by push_cast; ring)]

lemma installmentsPaid_cons (plan : EMIPlan) (ps : List PaymentRec) (p : PaymentRec)
    (h1 : p.customer = plan.customer) (h2 : p.car = plan.car)
    (h3 : p.payment_status = "completed")
    (h4 : dateLE plan.start_date p.payment_date = true)
    (h5 : plan.payment_id ≠ some p.id) :
    installmentsPaid (p :: ps) plan = p.amount + installmentsPaid ps plan := by
  have h5' : (plan.payment_id == some p.id) = false := beq_eq_false_iff_ne.mpr h5
  simp [installmentsPaid, List.filter_cons, h1, h2, h3, h4, h5']

/-! ## Claim theorems -/

/-- C9: for every date `d` and integer `n`, `_add_months(d, n)` adds
exactly `n` calendar months (the total month index advances by `n`) and
clamps the day to the last valid day of the target month, so the result
never spills into the following month; in particular
`_add_months(2024-01-31, 1) = 2024-02-29` and
`_add_months(2023-01-31, 1) = 2023-02-28`. -/
theorem C9_add_months_calendar (d : PyDate) (n : ℤ) (hd : 1 ≤ d.day) :
    monthsIndex (add_months d n) = monthsIndex d + n ∧
    (add_months d n).day =
      min d.day (daysInMonth (add_months d n).year (add_months d n).month) ∧
    1 ≤ (add_months d n).day ∧
    (add_months d n).day ≤ daysInMonth (add_months d n).year (add_months d n).month ∧
    1 ≤ (add_months d n).month ∧ (add_months d n).month ≤ 12 ∧
    add_months ⟨2024, 1, 31⟩ 1 = ⟨2024, 2, 29⟩ ∧
    add_months ⟨2023, 1, 31⟩ 1 = ⟨2023, 2, 28⟩ := by
  have key := Int.fmod_add_fdiv (d.month + n) 12
  have hnn : 0 ≤ (d.month + n).fmod 12 := Int.fmod_nonneg' _ (by norm_num)
  have hlt : (d.month + n).fmod 12 < 12 := Int.fmod_lt_of_pos _ (by norm_num)
  refine ⟨?_, ?_, ?_, ?_, ?_, ?_, by decide, by decide⟩
  · simp only [add_months, monthsIndex]
    split_ifs with h0
    · linarith
    · linarith
  · simp only [add_months]
  · simp only [add_months]
    exact le_min hd (daysInMonth_pos _ _)
  · simp only [add_months]
    exact min_le_right _ _
  · simp only [add_months]
    split_ifs with h0
    · norm_num
    · omega
  · simp only [add_months]
    split_ifs with h0
    · norm_num
    · omega

/-- C9 witness: the theorem instantiated at 2024-01-31 advanced by one
month. -/
theorem C9_witness :
    monthsIndex (add_months ⟨2024, 1, 31⟩ 1) = monthsIndex ⟨2024, 1, 31⟩ + 1 ∧
    add_months ⟨2024, 1, 31⟩ 1 = ⟨2024, 2, 29⟩ := by
  have h := C9_add_months_calendar ⟨2024, 1, 31⟩ 1 (by decide)
  exact ⟨h.1, h.2.2.2.2.2.2.1⟩

/-- C10: `EMIPlan.save` always leaves `next_due_date` non-null — whenever
the field is null at save time it is repopulated with
`start_date + 30 days` (a fixed 30-day offset, not one calendar month, as
the 2024-01-15 instance shows), and this happens regardless of
`plan_status`, which the save leaves untouched. -/
theorem C10_save_repopulates_due_date (p : EMIPlan) :
    (EMIPlan.save p).next_due_date ≠ none ∧
    (EMIPlan.save p).plan_status = p.plan_status ∧
    (p.next_due_date = none →
      (EMIPlan.save p).next_due_date = some (addDays p.start_date 30)) ∧
    (addDays ⟨2024, 1, 15⟩ 30 = (⟨2024, 2, 14⟩ : PyDate) ∧
     add_months ⟨2024, 1, 15⟩ 1 = (⟨2024, 2, 15⟩ : PyDate) ∧
     (⟨2024, 2, 14⟩ : PyDate) ≠ ⟨2024, 2, 15⟩) := by
  refine ⟨?_, ?_, ?_, by decide⟩
  · unfold EMIPlan.save
    split_ifs with h
    · simp
    · simpa using h
  · unfold EMIPlan.save
    split_ifs <;> rfl
  · intro h
    unfold EMIPlan.save
    rw [if_pos h]

/-- C10 witness: a plan already saved in terminal status `completed` with
a null `next_due_date` gets it repopulated with `start_date + 30 days` by
the next save. -/
theorem C10_witness :
    (EMIPlan.save c8Plan).next_due_date ≠ none ∧
    (EMIPlan.save c8Plan).plan_status = "completed" ∧
    (EMIPlan.save c8Plan).next_due_date = some ⟨2024, 2, 14⟩ := by
  have h := C10_save_repopulates_due_date c8Plan
  refine ⟨h.1, h.2.1, ?_⟩
  rw [h.2.2.1 rfl]
  decide

/-- C1: on the full-settlement path (`type=full`) of either channel, an
active plan does end up with status `completed`, but after the
`plan.save()` persists it, `next_due_date` is `start_date + 30 days` —
not null: the `EMIPlan.save` hook repopulates the null the view assigned.
This contradicts the claim that the finished operation leaves
`next_due_date = null`. -/
theorem C1_full_settlement_due_date (plan : EMIPlan) (payments : List PaymentRec)
    (newId amount : ℤ) (now : PyDate) (sid : String)
    (hactive : plan.plan_status = "active")
    (hfresh : payments.find? (fun p => p.stripe_session_id == sid) = none) :
    (make_emi_payment plan payments newId amount "full" now).map
        (fun o => (o.plan.plan_status, o.plan.next_due_date)) =
      .ok ("completed", some (addDays plan.start_date 30)) ∧
    (stripe_emi_success plan payments newId sid "full" amount now).plan.plan_status
      = "completed" ∧
    (stripe_emi_success plan payments newId sid "full" amount now).plan.next_due_date
      = some (addDays plan.start_date 30) ∧
    some (addDays plan.start_date 30) ≠ (none : Option PyDate) := by
  have hcore : emiPaymentCore plan payments newId amount "full" now =
      .ok ({ plan with plan_status := "completed", next_due_date := none },
           mkEmiPayment plan newId amount now :: payments, plan.tenure_months) := by
    unfold emiPaymentCore
    rw [if_neg (by simp [hactive]), if_neg (by simp), if_pos rfl]
  have hsave : EMIPlan.save
      { plan with plan_status := "completed", next_due_date := none } =
      { plan with plan_status := "completed",
                  next_due_date := some (addDays plan.start_date 30) } := by
    unfold EMIPlan.save
    rw [if_pos rfl]
  refine ⟨?_, ?_, ?_, by simp⟩
  · unfold make_emi_payment
    rw [hcore]
    simp [hsave, Except.map]
  · unfold stripe_emi_success
    rw [hfresh]
    simp [hsave]
  · unfold stripe_emi_success
    rw [hfresh]
    simp [hsave]

/-- C1 witness: the concrete scenario plan fully settled through
`make_emi_payment` ends `completed` with `next_due_date = 2024-02-14`
(its `start_date` 2024-01-15 plus 30 days), not null. -/
theorem C1_witness :
    scenPlan.plan_status = "active" ∧
    (make_emi_payment scenPlan scenPayments 9 2500000 "full" ⟨2024, 6, 1⟩).map
        (fun o => (o.plan.plan_status, o.plan.next_due_date)) =
      .ok ("completed", some ⟨2024, 2, 14⟩) := by
  have h := (C1_full_settlement_due_date scenPlan scenPayments 9 2500000
    ⟨2024, 6, 1⟩ "s1" rfl (by decide)).1
  refine ⟨rfl, ?_⟩
  rw [h]
  rfl

/-- C2 (amended): a non-full-settlement payment with `amount ≥
monthly_emi` on an active plan applies exactly `⌊amount / monthly_emi⌋`
installments, advances `next_due_date` by that many calendar months from
its current value (or from `_add_months(start_date, 1)` when unset), and
leaves the plan `active` while the cumulative installment total stays
below `loan_amount + total_interest`.  (In the concrete scenario the
remaining balance afterwards is ₹3,000, not ₹5,000 — see the
counterexample.) -/
theorem C2_partial_payment (plan : EMIPlan) (payments : List PaymentRec)
    (newId amount : ℤ) (ptype : String) (now : PyDate)
    (hactive : plan.plan_status = "active")
    (hemi : 0 < plan.monthly_emi)
    (hptype : ptype ≠ "full")
    (hamt : plan.monthly_emi ≤ amount)
    (hid : plan.payment_id ≠ some newId)
    (hdate : dateLE plan.start_date now = true)
    (hbelow : amount + installmentsPaid payments plan <
       plan.loan_amount + plan.total_interest) :
    make_emi_payment plan payments newId amount ptype now =
      .ok ⟨{ plan with next_due_date := some (advancedDueDate plan amount) },
            mkEmiPayment plan newId amount now :: payments,
            amount / plan.monthly_emi⟩ ∧
    ({ plan with next_due_date := some (advancedDueDate plan amount) }
       : EMIPlan).plan_status = "active" := by
  have hcons : installmentsPaid (mkEmiPayment plan newId amount now :: payments) plan
      = amount + installmentsPaid payments plan :=
    installmentsPaid_cons plan payments _ rfl rfl rfl hdate hid
  have hcore : emiPaymentCore plan payments newId amount ptype now =
      .ok ({ plan with next_due_date := some (advancedDueDate plan amount) },
            mkEmiPayment plan newId amount now :: payments,
            amount / plan.monthly_emi) := by
    unfold emiPaymentCore advancedDueDate
    rw [if_neg (by simp [hactive])]
    rw [if_neg (fun hc => absurd hc.1 (not_lt.mpr hamt))]
    rw [if_neg hptype]
    rw [hcons]
    rw [if_neg (not_le.mpr hbelow)]
  refine ⟨?_, hactive⟩
  unfold make_emi_payment
  rw [hcore]
  simp [EMIPlan.save]

/-- C2 counterexample to the claim as stated: the specified scenario
(monthly installment ₹10,000, remaining balance ₹25,000, payment ₹22,000
not flagged full-settlement) applies 2 installments, advances the due
date two months and remains active — but the remaining balance is
₹3,000, not ₹5,000: the ₹2,000 remainder is absorbed into the paid
total. -/
theorem C2_scenario_counterexample :
    emi_plan_detail_remaining_balance scenPlan scenPayments = 2500000 ∧
    make_emi_payment scenPlan scenPayments 3 2200000 "single" ⟨2024, 6, 1⟩ =
      .ok scenOut ∧
    scenOut.emi_count = 2 ∧
    scenOut.plan.plan_status = "active" ∧
    scenOut.plan.next_due_date = some ⟨2024, 7, 15⟩ ∧
    emi_plan_detail_remaining_balance scenOut.plan scenOut.payments = 300000 ∧
    emi_plan_detail_remaining_balance scenOut.plan scenOut.payments ≠ 500000 := by
  exact ⟨by decide, by rfl, by decide, by decide, by decide, by decide, by decide⟩

/-- C2 witness: the amended theorem instantiated at the concrete
scenario. -/
theorem C2_witness :
    scenPlan.plan_status = "active" ∧ 0 < scenPlan.monthly_emi ∧
    make_emi_payment scenPlan scenPayments 3 2200000 "single" ⟨2024, 6, 1⟩ =
      .ok ⟨{ scenPlan with next_due_date := some ⟨2024, 7, 15⟩ },
           mkEmiPayment scenPlan 3 2200000 ⟨2024, 6, 1⟩ :: scenPayments, 2⟩ := by
  refine ⟨rfl, by decide, ?_⟩
  have h := (C2_partial_payment scenPlan scenPayments 3 2200000 "single" ⟨2024, 6, 1⟩
    rfl (by decide) (by decide) (by decide) (by decide) (by decide) (by decide)).1
  rw [h]
  rfl

lemma roundHalfEvenCents_hundred : roundHalfEvenCents (100 : ℚ) = 10000 :=
  roundHalfEvenCents_ofInt _ _ (by norm_num)

/-- C3 (amended): at rate 0 the installment is `P / N` rounded half-up to
the cent, and `totalInterest = installment × N − P`, which is zero only
when the division rounds exactly — not always (see the
counterexample). -/
theorem C3_zero_rate_schedule (P : ℚ) (n : ℤ) (hn : 0 < n)
    (hp : 0 < roundHalfEvenCents P) :
    compute_emi P 0 n =
      some ⟨roundHalfUpCents ((roundHalfEvenCents P : ℚ) / 100 / (n : ℚ)),
            roundHalfUpCents ((roundHalfEvenCents P : ℚ) / 100 / (n : ℚ)) * n,
            roundHalfUpCents ((roundHalfEvenCents P : ℚ) / 100 / (n : ℚ)) * n
              - roundHalfEvenCents P⟩ :=
  compute_emi_zero_rate P n hn hp

/-- C3 counterexample to the claim as stated: for principal 100.00 at
rate 0 over 3 months, `_compute_emi` returns installment 33.33, total
99.99 and total interest −0.01 — not 0. -/
theorem C3_counterexample :
    compute_emi 100 0 3 = some ⟨3333, 9999, -1⟩ ∧ (-1 : ℤ) ≠ 0 := by
  have hz := compute_emi_zero_rate 100 3 (by norm_num)
    (by rw [roundHalfEvenCents_hundred]; norm_num)
  rw [roundHalfEvenCents_hundred] at hz
  have he : roundHalfUpCents (((10000 : ℤ) : ℚ) / 100 / ((3 : ℤ) : ℚ)) = 3333 := by
    apply roundHalfUpCents_eval
    · positivity
    · push_cast
      norm_num
    · push_cast
      norm_num
  rw [he] at hz
  refine ⟨?_, by norm_num⟩
  rw [hz]
  decide

/-- C3 witness: the amended theorem instantiated at principal 100.00 over
4 months, where the division is exact and the interest is 0. -/
theorem C3_witness :
    compute_emi 100 0 4 = some ⟨2500, 10000, 0⟩ := by
  have hz := C3_zero_rate_schedule 100 4 (by norm_num)
    (by rw [roundHalfEvenCents_hundred]; norm_num)
  rw [roundHalfEvenCents_hundred] at hz
  have he : roundHalfUpCents (((10000 : ℤ) : ℚ) / 100 / ((4 : ℤ) : ℚ)) = 2500 :=
    roundHalfUpCents_ofInt _ _ (by push_cast; norm_num)
  rw [he] at hz
  rw [hz]
  decide

/-- C4 (amended): `_compute_emi` satisfies `installment × N =
totalPayable` exactly and `totalPayable − principal = totalInterest`
exactly; but an `EMIPlan` created by a financed purchase stores
`total_payable = down_payment + installment × N`, so `monthly_emi ×
tenure_months` equals `total_payable − down_payment`, not `total_payable`
(the stored total includes the down payment). -/
theorem C4_reconciliation (P r : ℚ) (n : ℤ) (s : EmiSchedule)
    (h1 : compute_emi P r n = some s)
    (customerId carId : ℤ) (car : CarState) (color : Option ColorState)
    (payments : List PaymentRec) (sells newId : ℤ) (amount₀ down : ℤ)
    (rate : ℚ) (tenure : ℤ) (now : PyDate)
    (out : PurchaseOutcome) (pl : EMIPlan)
    (h2 : make_payment customerId carId car color payments sells newId "emi"
            amount₀ down rate tenure now = .ok out)
    (h3 : out.emi_plan = some pl) :
    s.total_amount = s.emi * n ∧
    s.total_interest = s.total_amount - roundHalfEvenCents P ∧
    pl.monthly_emi * pl.tenure_months = pl.total_payable - pl.down_payment ∧
    pl.down_payment = down := by
  obtain ⟨ht, hi⟩ := compute_emi_parts P r n s h1
  simp only [make_payment] at h2
  split at h2
  · exact absurd h2 (by simp)
  · split at h2
    · exact absurd h2 (by simp)
    · split at h2
      · split at h2
        · exact absurd h2 (by simp)
        · split at h2
          · exact absurd h2 (by simp)
          · split at h2
            · exact absurd h2 (by simp)
            · rename_i sched heq
              rw [Except.ok.injEq] at h2
              subst h2
              simp only [buildPurchase, Option.map_some', Option.some.injEq,
                EMIPlan.save] at h3
              rw [if_neg (by simp)] at h3
              obtain ⟨ht2, _⟩ := compute_emi_parts _ rate tenure sched heq
              subst h3
              refine ⟨ht, hi, ?_, rfl⟩
              simp only []
              rw [ht2]
              ring
      · rename_i hfalse
        exact absurd trivial hfalse

lemma compute_emi_c4 : compute_emi (360000 : ℚ) 0 36 = some ⟨1000000, 36000000, 0⟩ := by
  have hp36 : roundHalfEvenCents (360000 : ℚ) = 36000000 :=
    roundHalfEvenCents_ofInt _ _ (by norm_num)
  have hz := compute_emi_zero_rate (360000 : ℚ) 36 (by norm_num) (by rw [hp36]; norm_num)
  rw [hp36] at hz
  have he : roundHalfUpCents (((36000000 : ℤ) : ℚ) / 100 / ((36 : ℤ) : ℚ)) = 1000000 :=
    roundHalfUpCents_ofInt _ _ (by push_cast; norm_num)
  rw [he] at hz
  rw [hz]
  decide

lemma c4_eval :
    make_payment 1 1 ⟨5, true, 40000000⟩ (some ⟨3⟩) [] 0 7 "emi"
      40000000 4000000 0 36 ⟨2024, 3, 10⟩ = .ok c4out := by
  have hmin : roundHalfUpCents (40000 : ℚ) = 4000000 :=
    roundHalfUpCents_ofInt _ _ (by norm_num)
  simp only [make_payment]
  norm_num
  rw [hmin]
  rw [if_neg (lt_irrefl (4000000 : ℤ))]
  rw [compute_emi_c4]
  rfl

/-- C4 counterexample to the claim as stated: the financed purchase of a
₹400,000.00 car with the minimum ₹40,000.00 down payment at rate 0 over
36 months creates a plan with `monthly_emi × tenure_months =
₹360,000.00` but `total_payable = ₹400,000.00` — off by the down payment,
far more than one cent. -/
theorem C4_counterexample :
    make_payment 1 1 ⟨5, true, 40000000⟩ (some ⟨3⟩) [] 0 7 "emi"
      40000000 4000000 0 36 ⟨2024, 3, 10⟩ = .ok c4out ∧
    c4out.emi_plan = some c4plan ∧
    c4plan.monthly_emi * c4plan.tenure_months = 36000000 ∧
    c4plan.total_payable = 40000000 ∧
    c4plan.total_payable - c4plan.monthly_emi * c4plan.tenure_months = 4000000 ∧
    ¬ (c4plan.total_payable - c4plan.monthly_emi * c4plan.tenure_months ≤ 1) := by
  exact ⟨c4_eval, rfl, by decide, by decide, by decide, by decide⟩

/-- C4 witness: the amended theorem instantiated at the concrete financed
purchase. -/
theorem C4_witness :
    compute_emi (360000 : ℚ) 0 36 = some ⟨1000000, 36000000, 0⟩ ∧
    (36000000 : ℤ) = 1000000 * 36 ∧
    c4plan.monthly_emi * c4plan.tenure_months = c4plan.total_payable - c4plan.down_payment ∧
    c4plan.down_payment = 4000000 := by
  have h := C4_reconciliation (360000 : ℚ) 0 36 ⟨1000000, 36000000, 0⟩ compute_emi_c4
    1 1 ⟨5, true, 40000000⟩ (some ⟨3⟩) [] 0 7 40000000 4000000 0 36 ⟨2024, 3, 10⟩
    c4out c4plan c4_eval rfl
  exact ⟨compute_emi_c4, h.1, h.2.2.1, h.2.2.2⟩

/-- C5: externally-referenced payments are idempotent.  A first callback
with a fresh Stripe session id persists exactly one Payment carrying the
session id; replaying the same session id leaves the plan and the payment
table unchanged and redirects to the existing payment's receipt.  The
purchase callback (`stripe_success`) has the same guard: when a payment
with the session id already exists, nothing is written and the existing
payment's receipt is returned. -/
theorem C5_idempotent_external_ref (plan : EMIPlan) (payments : List PaymentRec)
    (newId newId₂ amount : ℤ) (sid : String) (ptype : String) (now now₂ : PyDate)
    (hemi₀ : 0 < plan.monthly_emi)
    (hfresh : payments.find? (fun q => q.stripe_session_id == sid) = none) :
    (stripe_emi_success plan payments newId sid ptype amount now).payments =
      ⟨newId, plan.customer, plan.car, amount, "completed", now, sid⟩ :: payments ∧
    stripe_emi_success (stripe_emi_success plan payments newId sid ptype amount now).plan
        (stripe_emi_success plan payments newId sid ptype amount now).payments
        newId₂ sid ptype amount now₂ =
      ⟨(stripe_emi_success plan payments newId sid ptype amount now).plan,
       (stripe_emi_success plan payments newId sid ptype amount now).payments, newId⟩ ∧
    ((stripe_emi_success plan payments newId sid ptype amount now).payments.filter
        (fun q => q.stripe_session_id == sid)).length = 1 ∧
    (∀ (customerId carId : ℤ) (car : CarState) (color : Option ColorState)
       (paymentsB : List PaymentRec) (sells newIdB : ℤ) (sidB ptypeB : String)
       (amountB downB : ℤ) (rateB : ℚ) (tenB : ℤ) (nowB : PyDate) (p : PaymentRec),
       paymentsB.find? (fun q => q.stripe_session_id == sidB) = some p →
       stripe_success customerId carId car color paymentsB sells newIdB sidB ptypeB
           amountB downB rateB tenB nowB =
         .ok ⟨car, color, paymentsB, sells, none, p.id⟩) := by
  have hpay : (stripe_emi_success plan payments newId sid ptype amount now).payments =
      ⟨newId, plan.customer, plan.car, amount, "completed", now, sid⟩ :: payments := by
    unfold stripe_emi_success
    rw [hfresh]
  have hfind2 : ((⟨newId, plan.customer, plan.car, amount, "completed", now, sid⟩
        : PaymentRec) :: payments).find? (fun q => q.stripe_session_id == sid) =
      some ⟨newId, plan.customer, plan.car, amount, "completed", now, sid⟩ :=
    List.find?_cons_of_pos _ (beq_self_eq_true sid)
  refine ⟨hpay, ?_, ?_, ?_⟩
  · rw [hpay]
    conv_lhs => rw [stripe_emi_success]
    rw [hfind2]
  · rw [hpay, List.filter_cons]
    have hall := List.find?_eq_none.mp hfresh
    have hnil : payments.filter (fun q => q.stripe_session_id == sid) = [] :=
      List.filter_eq_nil_iff.mpr hall
    simp [hnil]
  · intro customerId carId car color paymentsB sells newIdB sidB ptypeB
      amountB downB rateB tenB nowB p hdup
    unfold stripe_success
    rw [hdup]

/-- C5 witness: the theorem instantiated at the concrete scenario with
session id `sess_1`. -/
theorem C5_witness :
    (stripe_emi_success scenPlan scenPayments 4 "sess_1" "single" 1000000
        ⟨2024, 6, 1⟩).payments =
      ⟨4, 1, 1, 1000000, "completed", ⟨2024, 6, 1⟩, "sess_1"⟩ :: scenPayments ∧
    ((stripe_emi_success scenPlan scenPayments 4 "sess_1" "single" 1000000
        ⟨2024, 6, 1⟩).payments.filter
        (fun q => q.stripe_session_id == "sess_1")).length = 1 := by
  have h := C5_idempotent_external_ref scenPlan scenPayments 4 5 1000000 "sess_1"
    "single" ⟨2024, 6, 1⟩ ⟨2024, 6, 2⟩ (by decide) (by decide)
  exact ⟨h.1, h.2.2.1⟩

/-- C6 (amended): `make_emi_payment` does not apply its Payment insert
and its plan persistence in one atomic unit: every successful call
commits the new Payment inside the atomic block and only afterwards, via
the trailing `plan.save()`, persists the plan row — so the durable state
when that save fails contains the committed Payment next to the
unchanged plan row. -/
theorem C6_split_commit (plan : EMIPlan) (payments : List PaymentRec)
    (newId amount : ℤ) (ptype : String) (now : PyDate)
    (p' : EMIPlan) (ps : List PaymentRec) (c : ℤ)
    (h : emiPaymentCore plan payments newId amount ptype now = .ok (p', ps, c)) :
    ps = mkEmiPayment plan newId amount now :: payments ∧
    make_emi_payment_crashed_db plan payments newId amount ptype now = (plan, ps) ∧
    make_emi_payment plan payments newId amount ptype now = .ok ⟨p'.save, ps, c⟩ := by
  refine ⟨?_, ?_, ?_⟩
  · simp only [emiPaymentCore] at h
    split at h
    · exact absurd h (by simp)
    · split at h
      · exact absurd h (by simp)
      · split at h
        · simp only [Except.ok.injEq, Prod.mk.injEq] at h
          exact h.2.1.symm
        · split at h
          · simp only [Except.ok.injEq, Prod.mk.injEq] at h
            exact h.2.1.symm
          · simp only [Except.ok.injEq, Prod.mk.injEq] at h
            exact h.2.1.symm
  · unfold make_emi_payment_crashed_db
    rw [h]
  · unfold make_emi_payment
    rw [h]

/-- C6 counterexample to the claim as stated: a full settlement of the
concrete scenario plan, interrupted at the `plan.save()` that runs after
the atomic block, leaves a durable state with the ₹25,000.00 settlement
Payment persisted while the plan row is still `active` with its old due
date — a visible partial state, although the completed call would have
marked the plan `completed`. -/
theorem C6_counterexample :
    make_emi_payment_crashed_db scenPlan scenPayments 3 2500000 "full" ⟨2024, 6, 1⟩ =
      (scenPlan, mkEmiPayment scenPlan 3 2500000 ⟨2024, 6, 1⟩ :: scenPayments) ∧
    scenPlan.plan_status = "active" ∧
    (make_emi_payment scenPlan scenPayments 3 2500000 "full" ⟨2024, 6, 1⟩).map
        (fun o => o.plan.plan_status) = .ok "completed" := by
  exact ⟨by rfl, by decide, by rfl⟩

/-- C6 witness: the amended theorem instantiated at the concrete full
settlement. -/
theorem C6_witness :
    mkEmiPayment scenPlan 3 2500000 ⟨2024, 6, 1⟩ :: scenPayments =
      mkEmiPayment scenPlan 3 2500000 ⟨2024, 6, 1⟩ :: scenPayments ∧
    make_emi_payment_crashed_db scenPlan scenPayments 3 2500000 "full" ⟨2024, 6, 1⟩ =
      (scenPlan, mkEmiPayment scenPlan 3 2500000 ⟨2024, 6, 1⟩ :: scenPayments) ∧
    make_emi_payment scenPlan scenPayments 3 2500000 "full" ⟨2024, 6, 1⟩ =
      .ok ⟨EMIPlan.save { scenPlan with plan_status := "completed", next_due_date := none },
           mkEmiPayment scenPlan 3 2500000 ⟨2024, 6, 1⟩ :: scenPayments,
           scenPlan.tenure_months⟩ :=
  C6_split_commit scenPlan scenPayments 3 2500000 "full" ⟨2024, 6, 1⟩
    { scenPlan with plan_status := "completed", next_due_date := none }
    (mkEmiPayment scenPlan 3 2500000 ⟨2024, 6, 1⟩ :: scenPayments)
    scenPlan.tenure_months (by rfl)

/-- C7 (amended): the direct form path rejects a purchase with
`OutOfStock` when the chosen variant (or the vehicle generically, when no
variant is selected) has zero stock, and on success decrements the
variant's stock by exactly one; the Stripe callback path, however,
performs no stock check at all — with a zero-stock variant it still
completes the purchase, and the guarded decrement leaves the stock at
zero. -/
theorem C7_stock_guard (customerId carId : ℤ) (car carB carC : CarState)
    (c₀ c₁ c₂ : ColorState) (payments : List PaymentRec) (sells newId : ℤ)
    (ptype : String) (amount₀ down : ℤ) (rate : ℚ) (tenure : ℤ) (now : PyDate)
    (sid : String) (amt downS : ℤ) (rateS : ℚ) (tenS : ℤ)
    (h₀ : c₀.stock ≤ 0) (hcar : car.stock ≤ 0) (h₁ : 0 < c₁.stock) (hz : c₂.stock = 0)
    (hfresh : payments.find? (fun q => q.stripe_session_id == sid) = none) :
    make_payment customerId carId car (some c₀) payments sells newId ptype
        amount₀ down rate tenure now = .error .outOfStock ∧
    make_payment customerId carId car none payments sells newId ptype
        amount₀ down rate tenure now = .error .outOfStock ∧
    (∃ out, make_payment customerId carId carB (some c₁) payments sells newId "full"
        amount₀ down rate tenure now = .ok out ∧
      out.color = some ⟨c₁.stock - 1⟩ ∧
      out.payments.length = payments.length + 1) ∧
    (∃ out, stripe_success customerId carId carC (some c₂) payments sells newId sid
        "full" amt downS rateS tenS now = .ok out ∧
      out.color = some c₂ ∧
      out.payments.length = payments.length + 1) := by
  refine ⟨?_, ?_, ?_, ?_⟩
  · unfold make_payment
    rw [if_pos (by simpa using h₀)]
  · unfold make_payment
    rw [if_neg (by simp), if_pos ⟨rfl, hcar⟩]
  · unfold make_payment
    rw [if_neg (by simpa using not_le.mpr h₁), if_neg (by simp), if_neg (by simp)]
    refine ⟨_, rfl, ?_, ?_⟩
    · simp [buildPurchase, if_pos h₁]
    · simp [buildPurchase]
  · unfold stripe_success
    rw [hfresh, if_neg (by simp)]
    refine ⟨_, rfl, ?_, ?_⟩
    · simp [buildPurchase, hz]
    · simp [buildPurchase]

/-- C7 counterexample to the claim as stated: the Stripe purchase
callback with a variant whose stock is zero does not fail with
`OutOfStock` — it records the payment and the sale and leaves the stock
at zero. -/
theorem C7_counterexample :
    stripe_success 1 1 ⟨0, false, 40000000⟩ (some ⟨0⟩) [] 0 7 "sess_z" "full"
        40000000 0 0 36 ⟨2024, 9, 1⟩ =
      .ok ⟨⟨0, false, 40000000⟩, some ⟨0⟩,
           [⟨7, 1, 1, 40000000, "completed", ⟨2024, 9, 1⟩, "sess_z"⟩], 1, none, 7⟩ ∧
    ((⟨0⟩ : ColorState) : ColorState).stock = 0 := by
  exact ⟨by rfl, by decide⟩

/-- C7 witness: the amended theorem at concrete inputs. -/
theorem C7_witness :
    make_payment 1 1 (⟨0, false, 40000000⟩ : CarState) (some ⟨0⟩) [] 0 7 "full"
        40000000 0 0 36 ⟨2024, 9, 1⟩ = .error .outOfStock ∧
    (∃ out, stripe_success 1 1 (⟨9, true, 40000000⟩ : CarState) (some ⟨0⟩) [] 0 7
        "sess_w" "full" 40000000 0 0 36 ⟨2024, 9, 1⟩ = .ok out ∧
      out.color = some ⟨0⟩ ∧ out.payments.length = 0 + 1) := by
  have h := C7_stock_guard 1 1 ⟨0, false, 40000000⟩ ⟨9, true, 40000000⟩
    ⟨9, true, 40000000⟩ ⟨0⟩ ⟨5⟩ ⟨0⟩ [] 0 7 "full" 40000000 0 0 36 ⟨2024, 9, 1⟩
    "sess_w" 40000000 0 0 36 (by decide) (by decide) (by decide) (by decide) (by decide)
  exact ⟨h.1, h.2.2.2⟩

/-- C8 (amended): the manual channel refuses a payment on a non-active
plan with `PlanNotActive` and writes nothing; the Stripe EMI callback,
however, checks plan status only when the checkout session is created —
the success callback itself inserts the Payment and updates the plan even
when the plan is not active. -/
theorem C8_plan_not_active (plan : EMIPlan) (payments : List PaymentRec)
    (newId amount : ℤ) (ptype : String) (now : PyDate) (sid : String) (amt₂ : ℤ)
    (hemi₀ : 0 < plan.monthly_emi)
    (h : plan.plan_status ≠ "active")
    (hfresh : payments.find? (fun q => q.stripe_session_id == sid) = none) :
    make_emi_payment plan payments newId amount ptype now = .error .notActive ∧
    make_emi_payment_crashed_db plan payments newId amount ptype now = (plan, payments) ∧
    (stripe_emi_success plan payments newId sid ptype amt₂ now).payments =
      ⟨newId, plan.customer, plan.car, amt₂, "completed", now, sid⟩ :: payments := by
  have hcore : emiPaymentCore plan payments newId amount ptype now = .error .notActive := by
    unfold emiPaymentCore
    rw [if_pos h]
  refine ⟨?_, ?_, ?_⟩
  · unfold make_emi_payment
    rw [hcore]
  · unfold make_emi_payment_crashed_db
    rw [hcore]
  · unfold stripe_emi_success
    rw [hfresh]

/-- C8 counterexample to the claim as stated: a plan already `completed`
(not active) receiving a fresh Stripe EMI callback gets a new Payment
persisted and its `next_due_date` mutated — the callback performs no
`PlanNotActive` check. -/
theorem C8_counterexample :
    stripe_emi_success c8Plan scenPayments 5 "sess_x" "single" 1000000 ⟨2024, 8, 1⟩ =
      ⟨{ c8Plan with next_due_date := some ⟨2024, 3, 15⟩ },
       ⟨5, 1, 1, 1000000, "completed", ⟨2024, 8, 1⟩, "sess_x"⟩ :: scenPayments, 5⟩ ∧
    c8Plan.plan_status ≠ "active" ∧
    ({ c8Plan with next_due_date := some ⟨2024, 3, 15⟩ } : EMIPlan) ≠ c8Plan := by
  exact ⟨by rfl, by decide, by decide⟩

/-- C8 witness: the amended theorem at the concrete completed plan. -/
theorem C8_witness :
    make_emi_payment c8Plan scenPayments 5 1000000 "single" ⟨2024, 8, 1⟩ =
      .error .notActive ∧
    (stripe_emi_success c8Plan scenPayments 5 "sess_y" "single" 1000000
        ⟨2024, 8, 1⟩).payments =
      ⟨5, 1, 1, 1000000, "completed", ⟨2024, 8, 1⟩, "sess_y"⟩ :: scenPayments := by
  have h := C8_plan_not_active c8Plan scenPayments 5 1000000 "single" ⟨2024, 8, 1⟩
    "sess_y" 1000000 (by decide) (by decide) (by decide)
  exact ⟨h.1, h.2.2⟩

end CarStore
